import Mathlib

/-!
Verification of the legacy-to-unified alert migration core
(`pkg/services/ngalert/migration/alert_rule.go`).

Shallow embedding: Go JSON raw messages are modelled by an inductive `Json`
value type, `map[string]json.RawMessage` by an association list with
Go-map semantics (unique-key update on assignment), `int64` by `Int`
(no operation in the source overflows), and fallible Go calls by `Except`.
-/

namespace AlertMigration

/-- JSON values, modelling decoded `json.RawMessage` contents. -/
inductive Json where
  | null : Json
  | bool (b : Bool) : Json
  | num (n : Int) : Json
  | str (s : String) : Json
  | arr (xs : List Json) : Json
  | obj (fields : List (String × Json)) : Json

/-- Association list with string keys, modelling a Go `map[string]V`. -/
abbrev AList (α : Type) : Type := List (String × α)

/-- Key lookup (`m[k]` read), first matching entry. -/
def alookup {α : Type} : AList α → String → Option α
  | [], _ => none
  | (k', v) :: rest, k => if k' = k then some v else alookup rest k

/-- Key removal (`delete(m, k)`). -/
def aerase {α : Type} : AList α → String → AList α
  | [], _ => []
  | (k', v) :: rest, k => if k' = k then aerase rest k else (k', v) :: aerase rest k

/-- Key presence test (`_, ok := m[k]`). -/
def acontains {α : Type} : AList α → String → Bool
  | [], _ => false
  | (k', _) :: rest, k => if k' = k then true else acontains rest k

/-- Map assignment (`m[k] = v`): overwrite the key when present, append otherwise. -/
def aset {α : Type} (m : AList α) (k : String) (v : α) : AList α :=
  if acontains m k then
    m.map (fun p => if p.1 = k then (k, v) else p)
  else
    m ++ [(k, v)]

/-- Field map of one query model, the Go `map[string]json.RawMessage`. -/
abbrev JMap : Type := AList Json

/-- Go `json.Unmarshal(raw, &b)` for `b : bool`: succeeds exactly on the
literals `true` / `false`. -/
def unmarshalBool : Json → Option Bool
  | Json.bool b => some b
  | _ => none

/-- Go `json.Unmarshal(ds, &struct{ Type string })`: an object yields its
`"type"` field (zero value `""` when absent), `null` yields the zero value,
everything else fails; a non-string `"type"` value fails. -/
def unmarshalDatasourceType : Json → Option String
  | Json.obj fields => match alookup fields "type" with
    | some (Json.str t) => some t
    | some _ => none
    | none => some ""
  | Json.null => some ""
  | _ => none

/-- Source `isPrometheusQuery`: checks if the query is for Prometheus. -/
def isPrometheusQuery (queryData : JMap) : Except String Bool :=
  match alookup queryData "datasource" with
  | none => Except.error "missing datasource field"
  | some ds => match unmarshalDatasourceType ds with
    | none => Except.error "failed to parse datasource"
    | some t =>
      if t = "" then Except.error "missing type field"
      else Except.ok (t = "prometheus")

/-- Constant `graphite.TargetFullModelField`. -/
def TargetFullModelField : String := "targetFull"

/-- Constant `graphite.TargetModelField`. -/
def TargetModelField : String := "target"

/-- Source `fixGraphiteReferencedSubQueries`: promote `targetFull` into `target`,
deleting `targetFull`. -/
def fixGraphiteReferencedSubQueries (queryData : JMap) : JMap :=
  match alookup queryData TargetFullModelField with
  | some fullQuery => aset (aerase queryData TargetFullModelField) TargetModelField fullQuery
  | none => queryData

/-- Source `fixPrometheusBothTypeQuery`: convert Prometheus `Both` type queries
(instant and range both true) to range queries by forcing `instant` to
`false`; on any parse failure or non-Prometheus datasource the map is
returned unchanged. -/
def fixPrometheusBothTypeQuery (queryData : JMap) : JMap :=
  match alookup queryData "instant" with
  | some instantRaw =>
    match unmarshalBool instantRaw with
    | none => queryData
    | some instant =>
      match alookup queryData "range" with
      | some rangeRaw =>
        match unmarshalBool rangeRaw with
        | none => queryData
        | some rng =>
          if !instant || !rng then queryData
          else
            match isPrometheusQuery queryData with
            | Except.error _ => queryData
            | Except.ok false => queryData
            | Except.ok true => aset queryData "instant" (Json.bool false)
      | none => queryData
  | none =>
    -- `instant` stays at its zero value `false`, so the later
    -- `if !instant || !rng` check returns the map unchanged whether or
    -- not `range` parses; the only other exit on this path is the
    -- unparseable-`range` early return, which also returns it unchanged.
    queryData

/-- Source `ruleAdjustInterval`: snap the legacy frequency to the scheduler's base
granularity of 10 seconds.  Go `%` truncates toward zero, i.e. `Int.tmod`. -/
def ruleAdjustInterval (freq : Int) : Int :=
  let baseFreq : Int := 10
  if freq ≤ baseFreq then 10
  else freq - Int.tmod freq baseFreq

/-- Unified no-data state (`ngmodels.NoDataState`). -/
inductive NoDataState where
  | OK : NoDataState
  | NoData : NoDataState
  | Alerting : NoDataState
deriving DecidableEq, Repr

/-- Unified execution-error state (`ngmodels.ExecutionErrorState`). -/
inductive ExecutionErrorState where
  | OkErrState : ExecutionErrorState
  | ErrorErrState : ExecutionErrorState
  | AlertingErrState : ExecutionErrorState
deriving DecidableEq, Repr

/-- Modelled from the spec: legacy `legacymodels.NoDataOption` value for OK
(the legacy-models package is outside this tree). -/
def NoDataSetOK : String := "ok"

/-- Modelled from the spec: legacy explicit no-data value. -/
def NoDataSetNoData : String := "no_data"

/-- Modelled from the spec: legacy alerting value. -/
def NoDataSetAlerting : String := "alerting"

/-- Modelled from the spec: legacy keep-last-state value. -/
def NoDataKeepState : String := "keep_state"

/-- Modelled from the spec: legacy `legacymodels.ExecutionErrorOption` OK value. -/
def ExecutionErrorSetOk : String := "ok"

/-- Modelled from the spec: legacy execution-error alerting value. -/
def ExecutionErrorSetAlerting : String := "alerting"

/-- Modelled from the spec: legacy execution-error keep-last-state value. -/
def ExecutionErrorKeepState : String := "keep_state"

/-- Source `transNoData`: translate the legacy no-data state string. -/
def transNoData (s : String) : NoDataState :=
  if s = NoDataSetOK then NoDataState.OK
  else if s = "" ∨ s = NoDataSetNoData then NoDataState.NoData
  else if s = NoDataSetAlerting then NoDataState.Alerting
  else if s = NoDataKeepState then NoDataState.NoData
  else NoDataState.NoData

/-- Source `transExecErr`: translate the legacy execution-error state string. -/
def transExecErr (s : String) : ExecutionErrorState :=
  if s = "" ∨ s = ExecutionErrorSetAlerting then ExecutionErrorState.AlertingErrState
  else if s = ExecutionErrorKeepState then ExecutionErrorState.ErrorErrState
  else if s = ExecutionErrorSetOk then ExecutionErrorState.OkErrState
  else ExecutionErrorState.ErrorErrState

/-- Modelled from the spec: the sentinel datasource identifier marking
expression queries (declared elsewhere in the migration package). -/
def expressionDatasourceUID : String := "__expr__"

/-- The raw bytes of an `ngmodels.AlertQuery` model: either bytes that
unmarshal into a `map[string]json.RawMessage`, or bytes that do not
(carried verbatim so distinct malformed models stay distinct). -/
inductive ModelBytes where
  | valid (m : JMap) : ModelBytes
  | invalid (raw : String) : ModelBytes

/-- Type `ngmodels.AlertQuery`: the fields the migration reads or writes, plus
the ones it must leave untouched. -/
structure AlertQuery where
  refId : String
  queryType : String
  relativeTimeRangeFrom : Int
  relativeTimeRangeTo : Int
  datasourceUID : String
  model : ModelBytes

/-- The repair pipeline applied to one query inside the loop of
`migrateAlertRuleQueries`. -/
def migrateOneQuery (d : AlertQuery) : Except String AlertQuery :=
  if d.datasourceUID = expressionDatasourceUID then Except.ok d
  else
    match d.model with
    | ModelBytes.invalid raw => Except.error ("invalid character in " ++ raw)
    | ModelBytes.valid m =>
      let fixedData := aerase m "hide"
      let fixedData := fixGraphiteReferencedSubQueries fixedData
      let fixedData := fixPrometheusBothTypeQuery fixedData
      Except.ok { d with model := ModelBytes.valid fixedData }

/-- Source `migrateAlertRuleQueries`: repair every query, aborting on the first
failure (the Go loop returns `nil, err` there). -/
def migrateAlertRuleQueries : List AlertQuery → Except String (List AlertQuery)
  | [] => Except.ok []
  | d :: rest =>
    match migrateOneQuery d with
    | Except.error e => Except.error e
    | Except.ok d2 =>
      match migrateAlertRuleQueries rest with
      | Except.error e => Except.error e
      | Except.ok rest2 => Except.ok (d2 :: rest2)

/-- Modelled from the spec: `store.AlertDefinitionMaxTitleLength`, the
maximum-title-length policy of the backing store. -/
def AlertDefinitionMaxTitleLength : Nat := 190

/-- Source `truncateRuleName`: truncates the rule name to the maximum allowed
length. -/
def truncateRuleName (daName : String) : String :=
  if daName.length > AlertDefinitionMaxTitleLength then
    String.mk (daName.data.take AlertDefinitionMaxTitleLength)
  else daName

/-- Case folding applied before name comparison when the namespace is
case-insensitive. -/
def foldNameCI (caseInsensitive : Bool) (s : String) : String :=
  if caseInsensitive then s.toLower else s

/-- Boolean string-list membership used by the deduplicator's claimed-name
set. -/
def strElem : List String → String → Bool
  | [], _ => false
  | x :: rest, s => if x = s then true else strElem rest s

/-- Modelled from the spec: the per-namespace name deduplicator (its Go
type lives elsewhere in the migration package): a set of claimed names, a
case-sensitivity flag driven by the store dialect, and a maximum length. -/
structure Deduplicator where
  set : List String
  caseInsensitive : Bool
  maxLen : Nat
deriving DecidableEq, Repr

/-- Modelled from the spec: membership test respecting the
case-sensitivity flag (names are folded before being stored, so the probe
is folded too). -/
def Deduplicator.contains (d : Deduplicator) (s : String) : Bool :=
  strElem d.set (foldNameCI d.caseInsensitive s)

/-- Modelled from the spec: record a name as claimed. -/
def Deduplicator.add (d : Deduplicator) (s : String) : Deduplicator :=
  { d with set := foldNameCI d.caseInsensitive s :: d.set }

/-- Modelled from the spec: the bounded number of deduplication attempts. -/
def maxAttempts : Nat := 10

/-- Modelled from the spec: candidate built on attempt `i` — append a
numeric suffix, shortening the base name so the result still respects the
maximum length. -/
def dedupCandidate (name : String) (maxLen : Nat) (i : Nat) : String :=
  let suffix := "_" ++ toString i
  String.mk (name.data.take (maxLen - suffix.length)) ++ suffix

/-- Modelled from the spec: try candidates with suffixes `_i`, `_(i+1)`, …
until one is free or the fuel runs out. -/
def dedupLoop (d : Deduplicator) (name : String) : Nat → Nat → Except String String
  | _, 0 => Except.error "DeduplicationExhausted"
  | i, fuel + 1 =>
    if d.contains (dedupCandidate name d.maxLen i) then dedupLoop d name (i + 1) fuel
    else Except.ok (dedupCandidate name d.maxLen i)

/-- Modelled from the spec: deduplicate a claimed name within the bounded
attempt budget. -/
def Deduplicator.deduplicate (d : Deduplicator) (name : String) : Except String String :=
  dedupLoop d name 1 maxAttempts

/-- Auxiliary suppression record, keyed to the rule identifier it matches. -/
structure Silence where
  ruleUID : String
deriving DecidableEq, Repr

/-- One entry of the parsed settings' notification target list. -/
structure Notification where
  uid : String
  id : Int
deriving DecidableEq, Repr

/-- The Go `uidOrID` (an `any` holding either a UID string or an int64 id). -/
inductive UidOrID where
  | uid (s : String) : UidOrID
  | id (n : Int) : UidOrID
deriving DecidableEq, Repr

/-- Source `extractChannelIDs`: channel references from the parsed settings. -/
def extractChannelIDs (notifications : List Notification) : List UidOrID :=
  notifications.filterMap (fun ui =>
    if ui.uid ≠ "" then some (UidOrID.uid ui.uid)
    else if ui.id > 0 then some (UidOrID.id ui.id)
    else none)

/-- Type `dashAlertSettings` (declared elsewhere in the migration package): the
decoded view of the legacy settings JSON that this file reads. -/
structure DashAlertSettings where
  noDataState : String
  executionErrorState : String
  alertRuleTags : Json
  notifications : List Notification

/-- The legacy dashboard alert (fields read by this file). -/
structure DashAlert where
  id : Int
  orgId : Int
  panelId : Int
  frequency : Int
  forDuration : Int
  name : String
  state : String
  message : String
  parsedSettings : DashAlertSettings

/-- The dashboard fields the migration reads. -/
structure Dashboard where
  uid : String
  title : String
deriving DecidableEq, Repr

/-- The translated condition handed to `makeAlertRule`. -/
structure Condition where
  condition : String
  data : List AlertQuery

/-- Behavior of `simplejson.MustMap`: the fields of an object, or the empty map. -/
def mustMap : Json → List (String × Json)
  | Json.obj fields => fields
  | _ => []

/-- Behavior of `simplejson.MustString`: the value of a string, or the zero value. -/
def mustString : Json → String
  | Json.str s => s
  | _ => ""

/-- Modelled from the spec: `ngmodels.DashboardUIDAnnotation`. -/
def DashboardUIDAnnKey : String := "__dashboardUid__"

/-- Modelled from the spec: `ngmodels.PanelIDAnnotation`. -/
def PanelIDAnnKey : String := "__panelId__"

/-- The literal legacy-alert-id annotation key from the source. -/
def AlertIDAnnKey : String := "__alertId__"

/-- Modelled from the spec: `getLabelForSilenceMatching` returns the
reserved routing-label name paired with the rule identifier. -/
def silenceLabelName : String := "__alert_rule_uid__"

/-- Source `addMigrationInfo`: labels from the legacy tag map, plus the three
reserved provenance annotation entries. -/
def addMigrationInfo (da : DashAlert) (dashboardUID : String) :
    AList String × AList String :=
  let tagsMap := mustMap da.parsedSettings.alertRuleTags
  let lbls : AList String := tagsMap.map (fun p => (p.1, mustString p.2))
  let anns : AList String :=
    aset (aset (aset [] DashboardUIDAnnKey dashboardUID)
      PanelIDAnnKey (toString da.panelId)) AlertIDAnnKey (toString da.id)
  (lbls, anns)

/-- Type `ngmodels.AlertRule` (the fields this file assigns). -/
structure AlertRule where
  orgId : Int
  title : String
  uid : String
  condition : String
  data : List AlertQuery
  intervalSeconds : Int
  version : Int
  namespaceUID : String
  dashboardUID : String
  panelID : Int
  ruleGroup : String
  forDuration : Int
  updated : Int
  annotations : AList String
  labels : AList String
  ruleGroupIndex : Int
  isPaused : Bool
  noDataState : NoDataState
  execErrState : ExecutionErrorState

/-- The per-run migration state this file touches: the per-folder title
deduplicators, the synthesized silences, and the store dialect's
case-sensitivity (`om.dialect.SupportEngine()`). -/
structure OrgMigration where
  alertRuleTitleDedup : AList Deduplicator
  silences : List Silence
  caseInsensitive : Bool

/-- The deduplicator seeded on first use of a folder. -/
def newDeduplicator (caseInsensitive : Bool) : Deduplicator :=
  { set := [], caseInsensitive := caseInsensitive,
    maxLen := AlertDefinitionMaxTitleLength }

/-- The folder's deduplicator, created on first use (the Go code inserts a
fresh one into the map when absent, then reads it back). -/
def getDedup (om : OrgMigration) (folderUID : String) : Deduplicator :=
  match alookup om.alertRuleTitleDedup folderUID with
  | some d => d
  | none => newDeduplicator om.caseInsensitive

/-- Source `makeAlertRule`: assemble the unified rule from the translated
condition and the legacy alert.  Nondeterministic collaborators enter as
parameters: the generated short UID, the creation timestamp, and the two
Silence Synthesizer outcomes (modelled from the spec; failures are logged
and the migration proceeds). -/
def makeAlertRule (om : OrgMigration) (cond : Condition) (da : DashAlert)
    (dash : Dashboard) (folderUID : String) (genUID : String) (now : Int)
    (errSilenceResult noDataSilenceResult : Except String Silence) :
    Except String (AlertRule × OrgMigration) :=
  let info := addMigrationInfo da dash.uid
  let lbls := info.1
  let anns := aset info.2 "message" da.message
  match migrateAlertRuleQueries cond.data with
  | Except.error e => Except.error ("failed to migrate alert rule queries: " ++ e)
  | Except.ok data =>
    let dedupSet := getDedup om folderUID
    let name := truncateRuleName da.name
    match (if dedupSet.contains name then dedupSet.deduplicate name
           else Except.ok name) with
    | Except.error e =>
      Except.error ("failed to deduplicate alert rule name: " ++ e)
    | Except.ok name2 =>
      let om2 := { om with
        alertRuleTitleDedup :=
          aset om.alertRuleTitleDedup folderUID (dedupSet.add name2) }
      let isPaused := da.state == "paused"
      let ar : AlertRule :=
        { orgId := da.orgId, title := name2, uid := genUID,
          condition := cond.condition, data := data,
          intervalSeconds := ruleAdjustInterval da.frequency, version := 1,
          namespaceUID := folderUID, dashboardUID := dash.uid,
          panelID := da.panelId,
          ruleGroup := dash.title ++ " - " ++ toString da.panelId,
          forDuration := da.forDuration, updated := now,
          annotations := anns, labels := lbls,
          ruleGroupIndex := 1, isPaused := isPaused,
          noDataState := transNoData da.parsedSettings.noDataState,
          execErrState := transExecErr da.parsedSettings.executionErrorState }
      let ar2 := { ar with labels := aset ar.labels silenceLabelName ar.uid }
      let om3 := match errSilenceResult with
        | Except.ok s => { om2 with silences := om2.silences ++ [s] }
        | Except.error _ => om2
      let om4 := match noDataSilenceResult with
        | Except.ok s => { om3 with silences := om3.silences ++ [s] }
        | Except.error _ => om3
      Except.ok (ar2, om4)

/-- The per-alert inputs of one `makeAlertRule` call within a run. -/
structure AlertInput where
  cond : Condition
  da : DashAlert
  genUID : String
  errSilenceResult : Except String Silence
  noDataSilenceResult : Except String Silence

/-- A run migrating a sequence of legacy alerts into one folder: a failed
alert is skipped (logged) and the run continues, per the error-handling
design. -/
def migrateSequence (dash : Dashboard) (folderUID : String) (now : Int) :
    OrgMigration → List AlertInput → List AlertRule × OrgMigration
  | om, [] => ([], om)
  | om, a :: rest =>
    match makeAlertRule om a.cond a.da dash folderUID a.genUID now
        a.errSilenceResult a.noDataSilenceResult with
    | Except.error _ => migrateSequence dash folderUID now om rest
    | Except.ok (ar, om2) =>
      let r := migrateSequence dash folderUID now om2 rest
      (ar :: r.1, r.2)

/-! ### Association-list lemmas -/

theorem alookup_eq_none_of_acontains {α : Type} (m : AList α) (k : String)
    (h : acontains m k = false) : alookup m k = none := by
  induction m with
  | nil => rfl
  | cons p rest ih =>
    obtain ⟨k1, v1⟩ := p
    by_cases hk : k1 = k
    · simp [acontains, hk] at h
    · simp only [alookup, if_neg hk]
      simp only [acontains, if_neg hk] at h
      exact ih h

theorem alookup_append_left {α : Type} (a b : AList α) (k : String) (v : α)
    (h : alookup a k = some v) : alookup (a ++ b) k = some v := by
  induction a with
  | nil => simp [alookup] at h
  | cons p rest ih =>
    obtain ⟨k1, v1⟩ := p
    by_cases hk : k1 = k
    · simp only [alookup, if_pos hk] at h
      simp [alookup, if_pos hk, h]
    · simp only [alookup, if_neg hk] at h
      simpa [alookup, if_neg hk] using ih h

theorem alookup_append_right {α : Type} (a b : AList α) (k : String)
    (h : alookup a k = none) : alookup (a ++ b) k = alookup b k := by
  induction a with
  | nil => rfl
  | cons p rest ih =>
    obtain ⟨k1, v1⟩ := p
    by_cases hk : k1 = k
    · simp [alookup, if_pos hk] at h
    · simp only [alookup, if_neg hk] at h
      simpa [alookup, if_neg hk] using ih h

theorem alookup_overwrite {α : Type} (m : AList α) (k : String) (v : α)
    (h : acontains m k = true) :
    alookup (m.map fun p => if p.1 = k then (k, v) else p) k = some v := by
  induction m with
  | nil => simp [acontains] at h
  | cons p rest ih =>
    obtain ⟨k1, v1⟩ := p
    simp only [List.map_cons]
    by_cases hk : k1 = k
    · rw [if_pos (show (k1, v1).1 = k from hk)]
      simp [alookup]
    · rw [if_neg (show ¬(k1, v1).1 = k from hk)]
      simp only [acontains, if_neg hk] at h
      simp only [alookup, if_neg hk]
      exact ih h

theorem alookup_overwrite_ne {α : Type} (m : AList α) (k k' : String) (v : α)
    (h : k' ≠ k) :
    alookup (m.map fun p => if p.1 = k then (k, v) else p) k' = alookup m k' := by
  induction m with
  | nil => rfl
  | cons p rest ih =>
    obtain ⟨k1, v1⟩ := p
    simp only [List.map_cons]
    by_cases hk : k1 = k
    · rw [if_pos (show (k1, v1).1 = k from hk)]
      have hne : ¬k = k' := fun hkk => h (Eq.symm hkk)
      have hne1 : ¬k1 = k' := by rw [hk]; exact hne
      simp only [alookup, if_neg hne, if_neg hne1]
      exact ih
    · rw [if_neg (show ¬(k1, v1).1 = k from hk)]
      by_cases hk2 : k1 = k'
      · simp only [alookup, if_pos hk2]
      · simp only [alookup, if_neg hk2]
        exact ih

theorem alookup_aset_self {α : Type} (m : AList α) (k : String) (v : α) :
    alookup (aset m k v) k = some v := by
  unfold aset
  by_cases hc : acontains m k
  · rw [if_pos hc]
    exact alookup_overwrite m k v hc
  · rw [if_neg hc]
    rw [alookup_append_right m _ k
      (alookup_eq_none_of_acontains m k (by simpa using hc))]
    simp [alookup]

theorem alookup_aset_ne {α : Type} (m : AList α) (k k' : String) (v : α)
    (h : k' ≠ k) : alookup (aset m k v) k' = alookup m k' := by
  unfold aset
  by_cases hc : acontains m k
  · rw [if_pos hc]
    exact alookup_overwrite_ne m k k' v h
  · rw [if_neg hc]
    have hne : ¬k = k' := fun hkk => h (Eq.symm hkk)
    cases hm : alookup m k' with
    | some w => rw [alookup_append_left m _ k' w hm]
    | none =>
      rw [alookup_append_right m _ k' hm]
      simp [alookup, if_neg hne]

theorem alookup_aerase_self {α : Type} (m : AList α) (k : String) :
    alookup (aerase m k) k = none := by
  induction m with
  | nil => rfl
  | cons p rest ih =>
    obtain ⟨k1, v1⟩ := p
    by_cases hk : k1 = k
    · simp only [aerase, if_pos hk]
      exact ih
    · simp only [aerase, if_neg hk, alookup]
      exact ih

theorem alookup_aerase_ne {α : Type} (m : AList α) (k k' : String)
    (h : k' ≠ k) : alookup (aerase m k) k' = alookup m k' := by
  induction m with
  | nil => rfl
  | cons p rest ih =>
    obtain ⟨k1, v1⟩ := p
    by_cases hk : k1 = k
    · have hne1 : ¬k1 = k' := by
        rw [hk]; exact fun hkk => h (Eq.symm hkk)
      simp only [aerase, if_pos hk, alookup, if_neg hne1]
      exact ih
    · by_cases hk2 : k1 = k'
      · simp only [aerase, if_neg hk, alookup, if_pos hk2]
      · simp only [aerase, if_neg hk, alookup, if_neg hk2]
        exact ih

/-! ### C1: evaluation interval -/

/-- C1: for every legacy frequency `f`, the migrated evaluation interval is
10 when `f ≤ 10` and `f - (f mod 10)` otherwise (Go's truncated `mod`); it
is always a positive multiple of the base granularity 10, and frequency 5
yields 10. -/
theorem C1_ruleAdjustInterval_spec (f : Int) :
    (f ≤ 10 → ruleAdjustInterval f = 10) ∧
    (10 < f → ruleAdjustInterval f = f - Int.tmod f 10) ∧
    0 < ruleAdjustInterval f ∧
    (10 : Int) ∣ ruleAdjustInterval f ∧
    ruleAdjustInterval 5 = 10 := by
  have hbase : ∀ g : Int, g ≤ 10 → ruleAdjustInterval g = 10 := by
    intro g hg
    simp [ruleAdjustInterval, hg]
  have hbig : ∀ g : Int, 10 < g → ruleAdjustInterval g = g - Int.tmod g 10 := by
    intro g hg
    simp [ruleAdjustInterval, not_le.mpr hg]
  refine ⟨hbase f, hbig f, ?_, ?_, hbase 5 (by norm_num)⟩
  · by_cases h : f ≤ 10
    · rw [hbase f h]; norm_num
    · push_neg at h
      rw [hbig f h]
      have h1 := Int.tmod_lt_of_pos f (show (0 : Int) < 10 by norm_num)
      omega
  · by_cases h : f ≤ 10
    · rw [hbase f h]
    · push_neg at h
      rw [hbig f h]
      have h2 := Int.tdiv_add_tmod f 10
      exact ⟨f.tdiv 10, by omega⟩

/-- Witness for C1 at the concrete frequencies 5 and 37. -/
theorem C1_ruleAdjustInterval_witness :
    ruleAdjustInterval 5 = 10 ∧ ruleAdjustInterval 37 = 30 := by
  have h5 := (C1_ruleAdjustInterval_spec 5).1 (by norm_num)
  have h37 := (C1_ruleAdjustInterval_spec 37).2.1 (by norm_num)
  exact ⟨h5, by rw [h37]; rfl⟩

/-! ### C5: state translators -/

/-- C5: the two state translators are total: the no-data translator maps
"ok" to OK, "", "no_data" and "keep_state" to NoData, "alerting" to
Alerting, and everything else to NoData; the execution-error translator
maps "" and "alerting" to Alerting, "keep_state" to Error, "ok" to OK, and
everything else to Error. -/
theorem C5_state_translators_spec :
    transNoData "ok" = NoDataState.OK ∧
    transNoData "" = NoDataState.NoData ∧
    transNoData "no_data" = NoDataState.NoData ∧
    transNoData "keep_state" = NoDataState.NoData ∧
    transNoData "alerting" = NoDataState.Alerting ∧
    (∀ s, s ≠ "ok" → s ≠ "" → s ≠ "no_data" → s ≠ "keep_state" →
      s ≠ "alerting" → transNoData s = NoDataState.NoData) ∧
    transExecErr "" = ExecutionErrorState.AlertingErrState ∧
    transExecErr "alerting" = ExecutionErrorState.AlertingErrState ∧
    transExecErr "keep_state" = ExecutionErrorState.ErrorErrState ∧
    transExecErr "ok" = ExecutionErrorState.OkErrState ∧
    (∀ s, s ≠ "" → s ≠ "alerting" → s ≠ "keep_state" → s ≠ "ok" →
      transExecErr s = ExecutionErrorState.ErrorErrState) := by
  refine ⟨by decide, by decide, by decide, by decide, by decide, ?_,
    by decide, by decide, by decide, by decide, ?_⟩
  · intro s h1 h2 h3 h4 h5
    simp [transNoData, NoDataSetOK, NoDataSetNoData, NoDataSetAlerting,
      NoDataKeepState, h1, h2, h3, h4, h5]
  · intro s h1 h2 h3 h4
    simp [transExecErr, ExecutionErrorSetOk, ExecutionErrorSetAlerting,
      ExecutionErrorKeepState, h1, h2, h3, h4]

/-- Witness for C5 at the unrecognized input "bogus". -/
theorem C5_state_translators_witness :
    transNoData "bogus" = NoDataState.NoData ∧
    transExecErr "bogus" = ExecutionErrorState.ErrorErrState := by
  obtain ⟨-, -, -, -, -, hnd, -, -, -, -, hee⟩ := C5_state_translators_spec
  exact ⟨hnd "bogus" (by decide) (by decide) (by decide) (by decide) (by decide),
    hee "bogus" (by decide) (by decide) (by decide) (by decide)⟩

/-! ### C6: channel extraction -/

/-- C6: channel extraction keeps input order, takes the UID when non-empty,
else the numeric id when positive, drops entries with neither, and maps
`[{uid:"abc"}, {id:7}, {}]` to `["abc", 7]`. -/
theorem C6_extractChannelIDs_spec :
    extractChannelIDs [] = [] ∧
    (∀ (ui : Notification) (rest : List Notification),
      extractChannelIDs (ui :: rest) =
        (if ui.uid ≠ "" then [UidOrID.uid ui.uid]
         else if ui.id > 0 then [UidOrID.id ui.id] else []) ++
        extractChannelIDs rest) ∧
    extractChannelIDs [⟨"abc", 0⟩, ⟨"", 7⟩, ⟨"", 0⟩] =
      [UidOrID.uid "abc", UidOrID.id 7] := by
  refine ⟨rfl, ?_, by decide⟩
  intro ui rest
  by_cases h1 : ui.uid = ""
  · by_cases h2 : ui.id > 0
    · simp [extractChannelIDs, List.filterMap_cons, h1, h2]
    · simp [extractChannelIDs, List.filterMap_cons, h1, h2]
  · simp [extractChannelIDs, List.filterMap_cons, h1]

/-! ### C4: Graphite repair -/

/-- C4: when the field map holds a `targetFull` key, the Graphite repair
removes it and stores its value under `target` (whether or not `target`
already existed), leaving every other key untouched; without `targetFull`
the map is returned unchanged. -/
theorem C4_fixGraphite_spec (m : JMap) :
    (∀ v, alookup m TargetFullModelField = some v →
      alookup (fixGraphiteReferencedSubQueries m) TargetFullModelField = none ∧
      alookup (fixGraphiteReferencedSubQueries m) TargetModelField = some v ∧
      (∀ k, k ≠ TargetFullModelField → k ≠ TargetModelField →
        alookup (fixGraphiteReferencedSubQueries m) k = alookup m k)) ∧
    (alookup m TargetFullModelField = none →
      fixGraphiteReferencedSubQueries m = m) := by
  constructor
  · intro v hv
    have hne : TargetFullModelField ≠ TargetModelField := by decide
    unfold fixGraphiteReferencedSubQueries
    rw [hv]
    refine ⟨?_, ?_, ?_⟩
    · rw [alookup_aset_ne _ _ _ _ hne]
      exact alookup_aerase_self m _
    · exact alookup_aset_self _ _ _
    · intro k hk1 hk2
      rw [alookup_aset_ne _ _ _ _ hk2]
      exact alookup_aerase_ne m _ _ hk1
  · intro hv
    unfold fixGraphiteReferencedSubQueries
    rw [hv]

/-- Witness for C4 on a concrete map carrying `target`, `targetFull` and an
unrelated key. -/
theorem C4_fixGraphite_witness :
    alookup (fixGraphiteReferencedSubQueries
      [("target", Json.str "a"), ("targetFull", Json.str "b"),
       ("x", Json.num 1)]) TargetFullModelField = none ∧
    alookup (fixGraphiteReferencedSubQueries
      [("target", Json.str "a"), ("targetFull", Json.str "b"),
       ("x", Json.num 1)]) TargetModelField = some (Json.str "b") ∧
    alookup (fixGraphiteReferencedSubQueries
      [("target", Json.str "a"), ("targetFull", Json.str "b"),
       ("x", Json.num 1)]) "x" = some (Json.num 1) := by
  obtain ⟨h1, -⟩ := C4_fixGraphite_spec
    [("target", Json.str "a"), ("targetFull", Json.str "b"), ("x", Json.num 1)]
  obtain ⟨ha, hb, hc⟩ := h1 (Json.str "b") rfl
  exact ⟨ha, hb, (hc "x" (by decide) (by decide)).trans rfl⟩

/-! ### C2: Prometheus Both-type repair -/

/-- C2: on a non-expression query field map, when `instant` and `range`
both parse as `true` and the datasource declares type `"prometheus"`, the
repair forces `instant` to `false` (leaving `range` untouched); when either
field fails to parse as a boolean, or the datasource type cannot be
determined, or it is not `"prometheus"`, the map is returned unmodified. -/
theorem C2_fixPrometheusBoth_spec (m : JMap) :
    ((∃ vi, alookup m "instant" = some vi ∧ unmarshalBool vi = some true) →
     (∃ vr, alookup m "range" = some vr ∧ unmarshalBool vr = some true) →
     isPrometheusQuery m = Except.ok true →
     fixPrometheusBothTypeQuery m = aset m "instant" (Json.bool false) ∧
     alookup (fixPrometheusBothTypeQuery m) "instant" =
       some (Json.bool false) ∧
     alookup (fixPrometheusBothTypeQuery m) "range" = alookup m "range") ∧
    ((∃ vi, alookup m "instant" = some vi ∧ unmarshalBool vi = none) →
     fixPrometheusBothTypeQuery m = m) ∧
    ((∃ vr, alookup m "range" = some vr ∧ unmarshalBool vr = none) →
     fixPrometheusBothTypeQuery m = m) ∧
    (∀ e, isPrometheusQuery m = Except.error e →
     fixPrometheusBothTypeQuery m = m) ∧
    (isPrometheusQuery m = Except.ok false →
     fixPrometheusBothTypeQuery m = m) := by
  refine ⟨?_, ?_, ?_, ?_, ?_⟩
  · rintro ⟨vi, hvi, hbi⟩ ⟨vr, hvr, hbr⟩ hprom
    have hfix : fixPrometheusBothTypeQuery m = aset m "instant" (Json.bool false) := by
      simp only [fixPrometheusBothTypeQuery, hvi, hbi, hvr, hbr, hprom]
      simp
    refine ⟨hfix, ?_, ?_⟩
    · rw [hfix]
      exact alookup_aset_self m "instant" (Json.bool false)
    · rw [hfix]
      exact alookup_aset_ne m "instant" "range" (Json.bool false) (by decide)
  · rintro ⟨vi, hvi, hbi⟩
    simp only [fixPrometheusBothTypeQuery, hvi, hbi]
  · rintro ⟨vr, hvr, hbr⟩
    cases h1 : alookup m "instant" with
    | none => simp only [fixPrometheusBothTypeQuery, h1]
    | some vi =>
      cases h2 : unmarshalBool vi with
      | none => simp only [fixPrometheusBothTypeQuery, h1, h2]
      | some b =>
        simp only [fixPrometheusBothTypeQuery, h1, h2, hvr, hbr]
  · intro e he
    cases h1 : alookup m "instant" with
    | none => simp only [fixPrometheusBothTypeQuery, h1]
    | some vi =>
      cases h2 : unmarshalBool vi with
      | none => simp only [fixPrometheusBothTypeQuery, h1, h2]
      | some b =>
        cases h3 : alookup m "range" with
        | none => simp only [fixPrometheusBothTypeQuery, h1, h2, h3]
        | some vr =>
          cases h4 : unmarshalBool vr with
          | none => simp only [fixPrometheusBothTypeQuery, h1, h2, h3, h4]
          | some b2 =>
            simp only [fixPrometheusBothTypeQuery, h1, h2, h3, h4, he]
            rw [ite_self]
  · intro hfalse
    cases h1 : alookup m "instant" with
    | none => simp only [fixPrometheusBothTypeQuery, h1]
    | some vi =>
      cases h2 : unmarshalBool vi with
      | none => simp only [fixPrometheusBothTypeQuery, h1, h2]
      | some b =>
        cases h3 : alookup m "range" with
        | none => simp only [fixPrometheusBothTypeQuery, h1, h2, h3]
        | some vr =>
          cases h4 : unmarshalBool vr with
          | none => simp only [fixPrometheusBothTypeQuery, h1, h2, h3, h4]
          | some b2 =>
            simp only [fixPrometheusBothTypeQuery, h1, h2, h3, h4, hfalse]
            rw [ite_self]

/-- Witness for C2: a Prometheus Both-type map is flipped to range-only,
and a map whose datasource type is missing stays unmodified. -/
theorem C2_fixPrometheusBoth_witness :
    alookup (fixPrometheusBothTypeQuery
      [("instant", Json.bool true), ("range", Json.bool true),
       ("datasource", Json.obj [("type", Json.str "prometheus")])])
      "instant" = some (Json.bool false) ∧
    alookup (fixPrometheusBothTypeQuery
      [("instant", Json.bool true), ("range", Json.bool true),
       ("datasource", Json.obj [("type", Json.str "prometheus")])])
      "range" = some (Json.bool true) ∧
    fixPrometheusBothTypeQuery
      [("instant", Json.bool true), ("range", Json.bool true)] =
      [("instant", Json.bool true), ("range", Json.bool true)] := by
  obtain ⟨h1, -, -, h4, -⟩ := C2_fixPrometheusBoth_spec
    [("instant", Json.bool true), ("range", Json.bool true),
     ("datasource", Json.obj [("type", Json.str "prometheus")])]
  obtain ⟨-, ha, hb⟩ := h1 ⟨Json.bool true, rfl, rfl⟩ ⟨Json.bool true, rfl, rfl⟩ rfl
  obtain ⟨-, -, -, h4b, -⟩ := C2_fixPrometheusBoth_spec
    [("instant", Json.bool true), ("range", Json.bool true)]
  exact ⟨ha, hb.trans rfl, h4b "missing datasource field" rfl⟩

/-! ### C10: query-list migration frame -/

/-- Equality of every `AlertQuery` field except the model. -/
def sameExceptModel (a b : AlertQuery) : Prop :=
  a.refId = b.refId ∧ a.queryType = b.queryType ∧
  a.relativeTimeRangeFrom = b.relativeTimeRangeFrom ∧
  a.relativeTimeRangeTo = b.relativeTimeRangeTo ∧
  a.datasourceUID = b.datasourceUID

theorem migrateOneQuery_ok (d d2 : AlertQuery)
    (h : migrateOneQuery d = Except.ok d2) :
    sameExceptModel d2 d ∧
    (d.datasourceUID = expressionDatasourceUID → d2 = d) := by
  unfold migrateOneQuery at h
  by_cases hd : d.datasourceUID = expressionDatasourceUID
  · rw [if_pos hd] at h
    cases h
    exact ⟨⟨rfl, rfl, rfl, rfl, rfl⟩, fun _ => rfl⟩
  · rw [if_neg hd] at h
    cases hm : d.model with
    | invalid raw => rw [hm] at h; cases h
    | valid mm =>
      rw [hm] at h
      cases h
      exact ⟨⟨rfl, rfl, rfl, rfl, rfl⟩, fun hdd => absurd hdd hd⟩

/-- C10: query migration either fails (returning no list, and it does fail
whenever some non-expression query's model does not parse) or returns a
same-length, same-order list whose entries agree with the input on every
field but the model; an expression query is passed through identically with
its model never parsed, so a list whose non-expression queries all carry
parseable models always succeeds, malformed expression models included. -/
theorem C10_migrateQueries_spec (data : List AlertQuery) :
    (∀ out, migrateAlertRuleQueries data = Except.ok out →
      out.length = data.length ∧
      List.Forall₂ (fun din dout => sameExceptModel dout din ∧
        (din.datasourceUID = expressionDatasourceUID → dout = din)) data out) ∧
    ((∀ q ∈ data, q.datasourceUID ≠ expressionDatasourceUID →
        ∃ mm, q.model = ModelBytes.valid mm) →
      ∃ out, migrateAlertRuleQueries data = Except.ok out) ∧
    ((∃ q ∈ data, q.datasourceUID ≠ expressionDatasourceUID ∧
        ∀ mm, q.model ≠ ModelBytes.valid mm) →
      ∃ e, migrateAlertRuleQueries data = Except.error e) := by
  refine ⟨?_, ?_, ?_⟩
  · induction data with
    | nil =>
      intro out h
      cases h
      exact ⟨rfl, List.Forall₂.nil⟩
    | cons d rest ih =>
      intro out h
      unfold migrateAlertRuleQueries at h
      cases h1 : migrateOneQuery d with
      | error e => rw [h1] at h; cases h
      | ok d2 =>
        rw [h1] at h
        cases h2 : migrateAlertRuleQueries rest with
        | error e => rw [h2] at h; cases h
        | ok rest2 =>
          rw [h2] at h
          cases h
          obtain ⟨hlen, hall⟩ := ih rest2 h2
          exact ⟨by simp [hlen], List.Forall₂.cons (migrateOneQuery_ok d d2 h1) hall⟩
  · induction data with
    | nil => intro _; exact ⟨[], rfl⟩
    | cons d rest ih =>
      intro hvalid
      obtain ⟨out, hout⟩ := ih (fun q hq => hvalid q (List.mem_cons_of_mem d hq))
      have hone : ∃ d2, migrateOneQuery d = Except.ok d2 := by
        cases h1 : migrateOneQuery d with
        | ok d2 => exact ⟨d2, rfl⟩
        | error e =>
          exfalso
          unfold migrateOneQuery at h1
          by_cases hd : d.datasourceUID = expressionDatasourceUID
          · rw [if_pos hd] at h1
            exact Except.noConfusion h1
          · obtain ⟨mm, hmm⟩ := hvalid d (List.mem_cons_self d rest) hd
            rw [if_neg hd, hmm] at h1
            exact Except.noConfusion h1
      obtain ⟨d2, hd2⟩ := hone
      exact ⟨d2 :: out, by unfold migrateAlertRuleQueries; rw [hd2, hout]⟩
  · induction data with
    | nil => rintro ⟨q, hq, -⟩; cases hq
    | cons d rest ih =>
      rintro ⟨q, hq, hne, hbad⟩
      cases h1 : migrateOneQuery d with
      | error e =>
        exact ⟨e, by unfold migrateAlertRuleQueries; rw [h1]⟩
      | ok d2 =>
        have hq2 : q ∈ rest := by
          rcases List.mem_cons.mp hq with rfl | hmem
          · exfalso
            unfold migrateOneQuery at h1
            rw [if_neg hne] at h1
            cases hm : q.model with
            | invalid raw => rw [hm] at h1; exact Except.noConfusion h1
            | valid mm => exact hbad mm hm
          · exact hmem
        obtain ⟨e, he⟩ := ih ⟨q, hq2, hne, hbad⟩
        exact ⟨e, by unfold migrateAlertRuleQueries; rw [h1, he]⟩

/-- Demo query: an expression query carrying a malformed model. -/
def exprQueryDemo : AlertQuery :=
  { refId := "B", queryType := "", relativeTimeRangeFrom := 600,
    relativeTimeRangeTo := 0, datasourceUID := expressionDatasourceUID,
    model := ModelBytes.invalid "not json" }

/-- Demo query: an ordinary datasource query with a parseable model. -/
def dsQueryDemo : AlertQuery :=
  { refId := "A", queryType := "", relativeTimeRangeFrom := 600,
    relativeTimeRangeTo := 0, datasourceUID := "ds-uid-1",
    model := ModelBytes.valid [("hide", Json.bool true),
      ("target", Json.str "cpu")] }

/-- Demo query: an ordinary datasource query with a malformed model. -/
def badQueryDemo : AlertQuery :=
  { refId := "C", queryType := "", relativeTimeRangeFrom := 600,
    relativeTimeRangeTo := 0, datasourceUID := "ds-uid-2",
    model := ModelBytes.invalid "imagine" }

/-- Witness for C10: the malformed expression model does not fail the
migration and the output keeps the input's length, while a malformed
non-expression model does fail it. -/
theorem C10_migrateQueries_witness :
    (∃ out, migrateAlertRuleQueries [dsQueryDemo, exprQueryDemo] =
      Except.ok out ∧ out.length = 2) ∧
    (∃ e, migrateAlertRuleQueries [exprQueryDemo, badQueryDemo] =
      Except.error e) := by
  obtain ⟨hA, hB, -⟩ := C10_migrateQueries_spec [dsQueryDemo, exprQueryDemo]
  obtain ⟨-, -, hC⟩ := C10_migrateQueries_spec [exprQueryDemo, badQueryDemo]
  obtain ⟨out, hout⟩ := hB (by
    intro q hq hne
    simp only [List.mem_cons, List.not_mem_nil, or_false] at hq
    rcases hq with rfl | rfl
    · exact ⟨_, rfl⟩
    · exact absurd rfl hne)
  refine ⟨⟨out, hout, (hA out hout).1⟩, ?_⟩
  exact hC ⟨badQueryDemo, by simp, by decide, fun mm h => ModelBytes.noConfusion h⟩

/-! ### Shape of a successful `makeAlertRule` -/

theorem makeAlertRule_ok_fields (om : OrgMigration) (cond : Condition)
    (da : DashAlert) (dash : Dashboard) (folderUID genUID : String)
    (now : Int) (o1 o2 : Except String Silence) (ar : AlertRule)
    (om' : OrgMigration)
    (h : makeAlertRule om cond da dash folderUID genUID now o1 o2 =
      Except.ok (ar, om')) :
    ∃ data name2,
      migrateAlertRuleQueries cond.data = Except.ok data ∧
      ar = { orgId := da.orgId, title := name2, uid := genUID,
             condition := cond.condition, data := data,
             intervalSeconds := ruleAdjustInterval da.frequency, version := 1,
             namespaceUID := folderUID, dashboardUID := dash.uid,
             panelID := da.panelId,
             ruleGroup := dash.title ++ " - " ++ toString da.panelId,
             forDuration := da.forDuration, updated := now,
             annotations := aset (addMigrationInfo da dash.uid).2 "message"
               da.message,
             labels := aset (addMigrationInfo da dash.uid).1 silenceLabelName
               genUID,
             ruleGroupIndex := 1, isPaused := da.state == "paused",
             noDataState := transNoData da.parsedSettings.noDataState,
             execErrState :=
               transExecErr da.parsedSettings.executionErrorState } := by
  unfold makeAlertRule at h
  dsimp only at h
  split at h
  · exact Except.noConfusion h
  · rename_i data hq
    split at h
    · exact Except.noConfusion h
    · rename_i name2 hn
      injection h with h2
      rw [Prod.mk.injEq] at h2
      obtain ⟨har, hom⟩ := h2
      exact ⟨data, name2, hq, har.symm⟩

/-! ### C9: paused flag, group index, version -/

/-- C9: the migrated rule is paused exactly when the legacy state string is
`"paused"`, and it is always created with rule-group index 1 and version 1. -/
theorem C9_paused_group_version (om : OrgMigration) (cond : Condition)
    (da : DashAlert) (dash : Dashboard) (folderUID genUID : String)
    (now : Int) (o1 o2 : Except String Silence) (ar : AlertRule)
    (om' : OrgMigration)
    (h : makeAlertRule om cond da dash folderUID genUID now o1 o2 =
      Except.ok (ar, om')) :
    (ar.isPaused = true ↔ da.state = "paused") ∧
    ar.ruleGroupIndex = 1 ∧ ar.version = 1 := by
  obtain ⟨data, name2, -, har⟩ :=
    makeAlertRule_ok_fields om cond da dash folderUID genUID now o1 o2 ar om' h
  subst har
  refine ⟨?_, rfl, rfl⟩
  show (da.state == "paused") = true ↔ da.state = "paused"
  exact beq_iff_eq

/-! ### C7: reserved annotation and label entries -/

/-- C7: whatever the legacy tag map holds (empty included), the rule's
annotation map carries the dashboard-UID, panel-id and legacy-alert-id
entries, its `message` annotation equals the legacy message exactly, and
its label map carries the reserved routing label bound to the rule's
generated identifier. -/
theorem C7_annotations_labels (om : OrgMigration) (cond : Condition)
    (da : DashAlert) (dash : Dashboard) (folderUID genUID : String)
    (now : Int) (o1 o2 : Except String Silence) (ar : AlertRule)
    (om' : OrgMigration)
    (h : makeAlertRule om cond da dash folderUID genUID now o1 o2 =
      Except.ok (ar, om')) :
    alookup ar.annotations DashboardUIDAnnKey = some dash.uid ∧
    alookup ar.annotations PanelIDAnnKey = some (toString da.panelId) ∧
    alookup ar.annotations AlertIDAnnKey = some (toString da.id) ∧
    alookup ar.annotations "message" = some da.message ∧
    alookup ar.labels silenceLabelName = some ar.uid := by
  obtain ⟨data, name2, -, har⟩ :=
    makeAlertRule_ok_fields om cond da dash folderUID genUID now o1 o2 ar om' h
  subst har
  dsimp only
  have hanns : aset (addMigrationInfo da dash.uid).2 "message" da.message =
      aset (aset (aset (aset [] DashboardUIDAnnKey dash.uid)
        PanelIDAnnKey (toString da.panelId)) AlertIDAnnKey (toString da.id))
        "message" da.message := rfl
  refine ⟨?_, ?_, ?_, ?_, ?_⟩
  · show alookup (aset (addMigrationInfo da dash.uid).2 "message" da.message)
      DashboardUIDAnnKey = some dash.uid
    rw [hanns,
      alookup_aset_ne _ _ _ _ (show DashboardUIDAnnKey ≠ "message" by decide),
      alookup_aset_ne _ _ _ _
        (show DashboardUIDAnnKey ≠ AlertIDAnnKey by decide),
      alookup_aset_ne _ _ _ _
        (show DashboardUIDAnnKey ≠ PanelIDAnnKey by decide)]
    exact alookup_aset_self _ _ _
  · show alookup (aset (addMigrationInfo da dash.uid).2 "message" da.message)
      PanelIDAnnKey = some (toString da.panelId)
    rw [hanns,
      alookup_aset_ne _ _ _ _ (show PanelIDAnnKey ≠ "message" by decide),
      alookup_aset_ne _ _ _ _ (show PanelIDAnnKey ≠ AlertIDAnnKey by decide)]
    exact alookup_aset_self _ _ _
  · show alookup (aset (addMigrationInfo da dash.uid).2 "message" da.message)
      AlertIDAnnKey = some (toString da.id)
    rw [hanns,
      alookup_aset_ne _ _ _ _ (show AlertIDAnnKey ≠ "message" by decide)]
    exact alookup_aset_self _ _ _
  · exact alookup_aset_self _ _ _
  · exact alookup_aset_self _ _ _

/-! ### C8: silence failures are non-fatal -/

/-- C8: the outcome of the two silence creations never changes the
assembled rule or the error status of `makeAlertRule`: with any outcomes,
the returned rule equals the one returned when both creations succeed. -/
theorem C8_silence_nonfatal (om : OrgMigration) (cond : Condition)
    (da : DashAlert) (dash : Dashboard) (folderUID genUID : String)
    (now : Int) (o1 o2 : Except String Silence) (s1 s2 : Silence) :
    Except.map Prod.fst
      (makeAlertRule om cond da dash folderUID genUID now o1 o2) =
    Except.map Prod.fst
      (makeAlertRule om cond da dash folderUID genUID now
        (Except.ok s1) (Except.ok s2)) := by
  unfold makeAlertRule
  dsimp only
  cases hq : migrateAlertRuleQueries cond.data with
  | error e => rfl
  | ok data =>
    cases hn : (if (getDedup om folderUID).contains (truncateRuleName da.name)
          = true
        then (getDedup om folderUID).deduplicate (truncateRuleName da.name)
        else Except.ok (truncateRuleName da.name)) with
    | error e => rfl
    | ok name2 => rfl

/-- Demo inputs for concrete `makeAlertRule` runs. -/
def settingsDemo : DashAlertSettings :=
  { noDataState := "", executionErrorState := "keep_state",
    alertRuleTags := Json.obj [("team", Json.str "ops")],
    notifications := [{ uid := "abc", id := 0 }] }

def daDemo : DashAlert :=
  { id := 42, orgId := 1, panelId := 7, frequency := 5, forDuration := 300,
    name := "CPU > 90%", state := "paused", message := "",
    parsedSettings := settingsDemo }

def dashDemo : Dashboard := { uid := "dash-uid", title := "My Dash" }

def condDemo : Condition := { condition := "B", data := [] }

def omDemo : OrgMigration :=
  { alertRuleTitleDedup := [], silences := [], caseInsensitive := false }

/-- Witness for C9 on a concrete paused legacy alert. -/
theorem C9_paused_group_version_witness :
    ∃ ar om', makeAlertRule omDemo condDemo daDemo dashDemo "folder1"
      "uid123" 0 (Except.ok ⟨"uid123"⟩) (Except.ok ⟨"uid123"⟩) =
      Except.ok (ar, om') ∧
    ar.isPaused = true ∧ ar.ruleGroupIndex = 1 ∧ ar.version = 1 := by
  obtain ⟨ar, om', hrun⟩ :
      ∃ ar om', makeAlertRule omDemo condDemo daDemo dashDemo "folder1"
        "uid123" 0 (Except.ok ⟨"uid123"⟩) (Except.ok ⟨"uid123"⟩) =
        Except.ok (ar, om') := ⟨_, _, rfl⟩
  obtain ⟨hp, hg, hv⟩ := C9_paused_group_version omDemo condDemo daDemo
    dashDemo "folder1" "uid123" 0 (Except.ok ⟨"uid123"⟩)
    (Except.ok ⟨"uid123"⟩) ar om' hrun
  exact ⟨ar, om', hrun, hp.mpr rfl, hg, hv⟩

/-- Witness for C7 on a concrete run with an empty legacy message and a
failing error-silence creation. -/
theorem C7_annotations_labels_witness :
    ∃ ar om', makeAlertRule omDemo condDemo daDemo dashDemo "folder1"
      "uid123" 0 (Except.error "boom") (Except.ok ⟨"uid123"⟩) =
      Except.ok (ar, om') ∧
    alookup ar.annotations "message" = some "" ∧
    alookup ar.labels silenceLabelName = some ar.uid := by
  obtain ⟨ar, om', hrun⟩ :
      ∃ ar om', makeAlertRule omDemo condDemo daDemo dashDemo "folder1"
        "uid123" 0 (Except.error "boom") (Except.ok ⟨"uid123"⟩) =
        Except.ok (ar, om') := ⟨_, _, rfl⟩
  obtain ⟨-, -, -, hmsg, hlab⟩ := C7_annotations_labels omDemo condDemo
    daDemo dashDemo "folder1" "uid123" 0 (Except.error "boom")
    (Except.ok ⟨"uid123"⟩) ar om' hrun
  exact ⟨ar, om', hrun, hmsg, hlab⟩

/-! ### C3: title uniqueness and length bound -/

theorem truncateRuleName_length (s : String) :
    (truncateRuleName s).length ≤ AlertDefinitionMaxTitleLength ∧
    (s.length > AlertDefinitionMaxTitleLength →
      (truncateRuleName s).length = AlertDefinitionMaxTitleLength) := by
  unfold truncateRuleName
  by_cases h : s.length > AlertDefinitionMaxTitleLength
  · rw [if_pos h]
    have hdata : s.data.length = s.length := rfl
    have hlen : (String.mk (s.data.take AlertDefinitionMaxTitleLength)).length
        = min AlertDefinitionMaxTitleLength s.data.length := by
      rw [String.length_mk, List.length_take]
    constructor
    · rw [hlen]; omega
    · intro _; rw [hlen]; omega
  · rw [if_neg h]
    exact ⟨by omega, fun h2 => absurd h2 h⟩

theorem dedupCandidate_length (name : String) (maxLen i : Nat)
    (h : 1 + (toString i).length ≤ maxLen) :
    (dedupCandidate name maxLen i).length ≤ maxLen := by
  unfold dedupCandidate
  have hsuffix : ("_" ++ toString i).length = 1 + (toString i).length := by
    rw [String.length_append]
    rfl
  rw [String.length_append, String.length_mk, List.length_take, hsuffix]
  omega

/-- Reading `getDedup` through a present map entry. -/
theorem getDedup_eq_of_alookup (om : OrgMigration) (f : String)
    (d : Deduplicator) (h : alookup om.alertRuleTitleDedup f = some d) :
    getDedup om f = d := by
  unfold getDedup
  rw [h]

/-- Reading `getDedup` through an absent map entry. -/
theorem getDedup_eq_of_alookup_none (om : OrgMigration) (f : String)
    (h : alookup om.alertRuleTitleDedup f = none) :
    getDedup om f = newDeduplicator om.caseInsensitive := by
  unfold getDedup
  rw [h]

/-- The numeric suffixes tried within the attempt budget always fit inside
the maximum title length. -/
theorem suffix_fits (i : Nat) (h1 : 1 ≤ i) (h2 : i ≤ 10) :
    1 + (toString i).length ≤ AlertDefinitionMaxTitleLength := by
  interval_cases i <;> decide

theorem dedupLoop_ok (d : Deduplicator) (name : String) :
    ∀ fuel i cand, dedupLoop d name i fuel = Except.ok cand →
      d.contains cand = false ∧
      ∃ j, i ≤ j ∧ j < i + fuel ∧ cand = dedupCandidate name d.maxLen j := by
  intro fuel
  induction fuel with
  | zero => intro i cand h; exact Except.noConfusion h
  | succ k ih =>
    intro i cand h
    unfold dedupLoop at h
    by_cases hc : d.contains (dedupCandidate name d.maxLen i) = true
    · rw [if_pos hc] at h
      obtain ⟨hfree, j, hj1, hj2, hj3⟩ := ih (i + 1) cand h
      exact ⟨hfree, j, by omega, by omega, hj3⟩
    · rw [if_neg hc] at h
      injection h with h2
      subst h2
      exact ⟨by simpa using hc, i, Nat.le_refl i, by omega, rfl⟩

theorem deduplicate_ok (d : Deduplicator) (name cand : String)
    (h : d.deduplicate name = Except.ok cand) :
    d.contains cand = false ∧
    ∃ j, 1 ≤ j ∧ j ≤ 10 ∧ cand = dedupCandidate name d.maxLen j := by
  have hmax : maxAttempts = 10 := rfl
  obtain ⟨hfree, j, h1, h2, h3⟩ := dedupLoop_ok d name maxAttempts 1 cand h
  exact ⟨hfree, j, h1, by omega, h3⟩

/-- The title produced by the truncate/deduplicate step is length-bounded
and not yet claimed. -/
theorem assigned_title_ok (d : Deduplicator) (daName name2 : String)
    (hm : d.maxLen = AlertDefinitionMaxTitleLength)
    (h : (if d.contains (truncateRuleName daName) = true
          then d.deduplicate (truncateRuleName daName)
          else Except.ok (truncateRuleName daName)) = Except.ok name2) :
    name2.length ≤ AlertDefinitionMaxTitleLength ∧
    d.contains name2 = false := by
  by_cases hc : d.contains (truncateRuleName daName) = true
  · rw [if_pos hc] at h
    obtain ⟨hfree, j, h1, h2, h3⟩ := deduplicate_ok d _ _ h
    subst h3
    refine ⟨?_, hfree⟩
    rw [hm]
    exact dedupCandidate_length _ _ _ (suffix_fits j h1 h2)
  · rw [if_neg hc] at h
    injection h with h2
    subst h2
    exact ⟨(truncateRuleName_length daName).1, by simpa using hc⟩

theorem strElem_cons_of_mem (x s : String) (l : List String)
    (h : strElem l s = true) : strElem (x :: l) s = true := by
  unfold strElem
  by_cases hx : x = s
  · rw [if_pos hx]
  · rw [if_neg hx]; exact h

theorem strElem_head (s : String) (l : List String) :
    strElem (s :: l) s = true := by
  unfold strElem
  rw [if_pos rfl]

/-- The per-step effect of a successful `makeAlertRule` on the folder's
deduplicator state. -/
theorem makeAlertRule_ok_dedup (om : OrgMigration) (cond : Condition)
    (da : DashAlert) (dash : Dashboard) (folderUID genUID : String)
    (now : Int) (o1 o2 : Except String Silence) (ar : AlertRule)
    (om' : OrgMigration)
    (h : makeAlertRule om cond da dash folderUID genUID now o1 o2 =
      Except.ok (ar, om')) :
    om'.caseInsensitive = om.caseInsensitive ∧
    om'.alertRuleTitleDedup =
      aset om.alertRuleTitleDedup folderUID
        ((getDedup om folderUID).add ar.title) ∧
    (if (getDedup om folderUID).contains (truncateRuleName da.name) = true
      then (getDedup om folderUID).deduplicate (truncateRuleName da.name)
      else Except.ok (truncateRuleName da.name)) = Except.ok ar.title := by
  unfold makeAlertRule at h
  dsimp only at h
  split at h
  · exact Except.noConfusion h
  · rename_i data hq
    split at h
    · exact Except.noConfusion h
    · rename_i name2 hn
      injection h with h2
      rw [Prod.mk.injEq] at h2
      obtain ⟨har, hom⟩ := h2
      have htitle : ar.title = name2 := by rw [← har]
      subst hom
      cases o1 <;> cases o2 <;>
        exact ⟨rfl, by rw [htitle], by rw [htitle]; exact hn⟩

/-- The run-level invariant behind C3: across a same-folder sequence, the
claimed-name set only grows, every assigned title is length-bounded, its
fold enters the set, and all assigned titles are pairwise distinct under
the folder's case policy. -/
theorem migrateSequence_invariant (dash : Dashboard) (folderUID : String)
    (now : Int) :
    ∀ (inputs : List AlertInput) (om : OrgMigration),
      (getDedup om folderUID).caseInsensitive = om.caseInsensitive →
      (getDedup om folderUID).maxLen = AlertDefinitionMaxTitleLength →
      ∀ ars om', migrateSequence dash folderUID now om inputs = (ars, om') →
        om'.caseInsensitive = om.caseInsensitive ∧
        (getDedup om' folderUID).caseInsensitive = om.caseInsensitive ∧
        (getDedup om' folderUID).maxLen = AlertDefinitionMaxTitleLength ∧
        (∀ s, strElem (getDedup om folderUID).set s = true →
          strElem (getDedup om' folderUID).set s = true) ∧
        (∀ ar ∈ ars, ar.title.length ≤ AlertDefinitionMaxTitleLength ∧
          strElem (getDedup om' folderUID).set
            (foldNameCI om.caseInsensitive ar.title) = true ∧
          strElem (getDedup om folderUID).set
            (foldNameCI om.caseInsensitive ar.title) = false) ∧
        (ars.map AlertRule.title).Pairwise
          (fun a b => foldNameCI om.caseInsensitive a ≠
            foldNameCI om.caseInsensitive b) := by
  intro inputs
  induction inputs with
  | nil =>
    intro om hci hml ars om' h
    unfold migrateSequence at h
    injection h with h1 h2
    subst h1; subst h2
    exact ⟨rfl, hci, hml, fun s hs => hs, by simp, by simp⟩
  | cons a rest ih =>
    intro om hci hml ars om' h
    unfold migrateSequence at h
    cases hstep : makeAlertRule om a.cond a.da dash folderUID a.genUID now
        a.errSilenceResult a.noDataSilenceResult with
    | error e =>
      rw [hstep] at h
      exact ih om hci hml ars om' h
    | ok p =>
      obtain ⟨ar, om2⟩ := p
      rw [hstep] at h
      dsimp only at h
      obtain ⟨hsci, hsmap, hstitle⟩ := makeAlertRule_ok_dedup om a.cond a.da
        dash folderUID a.genUID now a.errSilenceResult a.noDataSilenceResult
        ar om2 hstep
      have hget2 : getDedup om2 folderUID =
          (getDedup om folderUID).add ar.title :=
        getDedup_eq_of_alookup om2 folderUID _
          (by rw [hsmap]; exact alookup_aset_self _ _ _)
      have hset2 : (getDedup om2 folderUID).set =
          foldNameCI om.caseInsensitive ar.title ::
            (getDedup om folderUID).set := by
        rw [hget2]
        show foldNameCI (getDedup om folderUID).caseInsensitive ar.title ::
            (getDedup om folderUID).set =
          foldNameCI om.caseInsensitive ar.title ::
            (getDedup om folderUID).set
        rw [hci]
      have hci2 : (getDedup om2 folderUID).caseInsensitive =
          om2.caseInsensitive := by
        rw [hget2, hsci]
        show (getDedup om folderUID).caseInsensitive = om.caseInsensitive
        exact hci
      have hml2 : (getDedup om2 folderUID).maxLen =
          AlertDefinitionMaxTitleLength := by
        rw [hget2]
        show (getDedup om folderUID).maxLen = AlertDefinitionMaxTitleLength
        exact hml
      obtain ⟨hlen, hfree⟩ := assigned_title_ok (getDedup om folderUID)
        a.da.name ar.title hml hstitle
      have hfree2 : strElem (getDedup om folderUID).set
          (foldNameCI om.caseInsensitive ar.title) = false := by
        rw [← hci]
        exact hfree
      cases hrest : migrateSequence dash folderUID now om2 rest with
      | mk ars2 om2' =>
        rw [hrest] at h
        dsimp only at h
        injection h with h1 h2
        subst h1; subst h2
        obtain ⟨ih1, ih2, ih3, ih4, ih5, ih6⟩ :=
          ih om2 hci2 hml2 ars2 om2' hrest
        have homci : om2'.caseInsensitive = om.caseInsensitive :=
          ih1.trans hsci
        have hfold : foldNameCI om2.caseInsensitive =
            foldNameCI om.caseInsensitive := by rw [hsci]
        refine ⟨homci, ih2.trans hsci, ih3, ?_, ?_, ?_⟩
        · intro s hs
          apply ih4
          rw [hset2]
          exact strElem_cons_of_mem _ s _ hs
        · intro t ht
          rcases List.mem_cons.mp ht with rfl | ht2
          · refine ⟨hlen, ?_, hfree2⟩
            apply ih4
            rw [hset2]
            exact strElem_head _ _
          · obtain ⟨hl, hmem, hnot⟩ := ih5 t ht2
            rw [hfold] at hmem hnot
            refine ⟨hl, hmem, ?_⟩
            cases hin : strElem (getDedup om folderUID).set
                (foldNameCI om.caseInsensitive t.title) with
            | false => rfl
            | true =>
              exfalso
              have : strElem (getDedup om2 folderUID).set
                  (foldNameCI om.caseInsensitive t.title) = true := by
                rw [hset2]
                exact strElem_cons_of_mem _ _ _ hin
              rw [this] at hnot
              exact Bool.noConfusion hnot
        · rw [List.map_cons]
          refine List.Pairwise.cons ?_ (by
            have := ih6
            rw [hfold] at this
            exact this)
          intro b hb
          obtain ⟨t, ht, rfl⟩ := List.mem_map.mp hb
          obtain ⟨-, -, hnot⟩ := ih5 t ht
          rw [hfold] at hnot
          intro hcontra
          have hmem1 : strElem (getDedup om2 folderUID).set
              (foldNameCI om.caseInsensitive ar.title) = true := by
            rw [hset2]
            exact strElem_head _ _
          rw [hcontra] at hmem1
          rw [hmem1] at hnot
          exact Bool.noConfusion hnot

/-- C3: migrating any sequence of legacy alerts into one folder (starting
from a fresh run) yields rule titles that are pairwise distinct under the
folder deduplicator's case policy and never longer than the configured
maximum; an over-long legacy name is truncated to exactly the maximum
before deduplication. -/
theorem C3_title_dedup_spec (dash : Dashboard) (folderUID : String)
    (now : Int) (inputs : List AlertInput) (om0 : OrgMigration)
    (ars : List AlertRule) (om' : OrgMigration)
    (h0 : om0.alertRuleTitleDedup = [])
    (h : migrateSequence dash folderUID now om0 inputs = (ars, om')) :
    (ars.map AlertRule.title).Pairwise
      (fun a b => foldNameCI om0.caseInsensitive a ≠
        foldNameCI om0.caseInsensitive b) ∧
    (∀ ar ∈ ars, ar.title.length ≤ AlertDefinitionMaxTitleLength) ∧
    (∀ n : String, n.length > AlertDefinitionMaxTitleLength →
      (truncateRuleName n).length = AlertDefinitionMaxTitleLength) := by
  have hget : getDedup om0 folderUID = newDeduplicator om0.caseInsensitive :=
    getDedup_eq_of_alookup_none om0 folderUID (by rw [h0]; rfl)
  obtain ⟨-, -, -, -, hmem, hpw⟩ := migrateSequence_invariant dash folderUID
    now inputs om0 (by rw [hget]; rfl) (by rw [hget]; rfl) ars om' h
  exact ⟨hpw, fun ar har => (hmem ar har).1,
    fun n hn => (truncateRuleName_length n).2 hn⟩

/-- Demo inputs: two legacy alerts with the same name in the same folder. -/
def inputDemo1 : AlertInput :=
  { cond := condDemo, da := daDemo, genUID := "uid1",
    errSilenceResult := Except.error "e",
    noDataSilenceResult := Except.error "e" }

def inputDemo2 : AlertInput :=
  { cond := condDemo, da := daDemo, genUID := "uid2",
    errSilenceResult := Except.error "e",
    noDataSilenceResult := Except.error "e" }

/-- Witness for C3: a concrete two-alert run with a duplicated legacy name
still yields pairwise-distinct, length-bounded titles. -/
theorem C3_title_dedup_witness :
    ∃ ars om', migrateSequence dashDemo "folder1" 0 omDemo
      [inputDemo1, inputDemo2] = (ars, om') ∧
    (ars.map AlertRule.title).Pairwise
      (fun a b => foldNameCI omDemo.caseInsensitive a ≠
        foldNameCI omDemo.caseInsensitive b) ∧
    ∀ ar ∈ ars, ar.title.length ≤ AlertDefinitionMaxTitleLength := by
  obtain ⟨ars, om', hrun⟩ :
      ∃ ars om', migrateSequence dashDemo "folder1" 0 omDemo
        [inputDemo1, inputDemo2] = (ars, om') := ⟨_, _, rfl⟩
  obtain ⟨hpw, hlen, -⟩ := C3_title_dedup_spec dashDemo "folder1" 0
    [inputDemo1, inputDemo2] omDemo ars om' rfl hrun
  exact ⟨ars, om', hrun, hpw, hlen⟩

end AlertMigration
